import Mathlib

/-
Verification of the media scanning orchestrator.

Shallow embedding of the repository's core:
  - src/app/services/media_scanner.js   (scanMediaJobs, withRetry, bucketMap)
  - src/unnamed/part_000                (safeSearchFromUrls, the Google Vision adapter)
  - src/unnamed/part_001                (batching queue: queueMediaJob, maybeFlush,
                                         scheduleFlush, recovery bootstrap)
  - src/app/services/db.js, s3.js       (external collaborators, modelled at their
                                         call boundary as effect invocations whose
                                         success or failure is decided by an oracle)

Stateful / effectful JavaScript is embedded as pure functions that return the
list of external invocations (the effect trace) together with the relevant
results.  Every awaited external call that the scanner wraps in try/catch is
given a Boolean failure oracle in the environment; the trace records the
invocation itself (the call was made) and, when the oracle says it threw, the
audit-log invocation the catch block performs.
-/

namespace MediaScan

/-- A media job, as carried through the queue and the scanner
(see the shape comment inside queueMediaJob in src/unnamed/part_001).
`linked_to_type` is `Option String` because the JS field may be absent. -/
structure Job where
  id : String
  user_id : String
  file_name : String
  file_size : Nat
  sha256_hash : String
  mime_type : String
  linked_to_id : String
  linked_to_type : Option String
  url : String
deriving Repr, DecidableEq

/-- One element of the scan backend's `results` array.  `is_nsfw` is
`none` when the field is missing or not a Boolean (the JS code checks
`typeof result.is_nsfw !== "boolean"`); `error` records whether the verdict
carries a backend `error` object (as the Vision adapter attaches). -/
structure ScanResult where
  job_id : String
  is_nsfw : Option Bool
  width : Option Int := none
  height : Option Int := none
  duration : Option Int := none
  error : Bool := false
deriving Repr, DecidableEq

/-- A Google Vision safeSearchAnnotation, keeping the three likelihood
fields the code inspects (src/unnamed/part_000 line 29). -/
structure SafeAnnot where
  adult : String
  violence : String
  racy : String
deriving Repr, DecidableEq

/-- One entry of `data.responses` from the Vision API: either it carries an
`error` object or a safeSearchAnnotation. -/
inductive VisionResponse
  | err
  | annot (a : SafeAnnot)
deriving Repr, DecidableEq

/-- The likelihood strings the adapter treats as NSFW (part_000 line 28). -/
def visionLikelihoods : List String := ["POSSIBLE", "LIKELY", "VERY_LIKELY"]

/-- Verdict built for one job from one Vision response
(src/unnamed/part_000 lines 20-37).  On a response error the adapter
returns `is_nsfw: false` together with the error. -/
def visionVerdict (job : Job) (res : VisionResponse) : ScanResult :=
  match res with
  | .err => { job_id := job.id, is_nsfw := some false, error := true }
  | .annot a =>
      { job_id := job.id,
        is_nsfw := some (visionLikelihoods.any fun l =>
          l == a.adult || l == a.violence || l == a.racy),
        error := false }

/-- safeSearchFromUrls (src/unnamed/part_000): maps response i to job i.
The JS maps over `data.responses` indexing into `jobs`; we assume the two
lists are aligned, which `zipWith` expresses. -/
def safeSearchFromUrls (jobs : List Job) (responses : List VisionResponse) :
    List ScanResult :=
  List.zipWith visionVerdict jobs responses

/-- External invocations the scanner performs, in order.  Each constructor
is one call into db.js / s3.js with the arguments the scanner passes
(payload fields not needed by any claim are omitted). -/
inductive Effect
  | addBlockedHash (hash_value : String) (source_type : String) (file_key : String)
  | restrictUser (user_id : String)
  | logEvent (action : String) (error_name : Option String) (target_id : Option String)
  | moveObject (fromKey : String) (toBucket : String) (toKey : String)
  | createMediaItem (job_id : String) (user_id : String) (file_name : String)
      (width : Option Int) (height : Option Int) (duration : Option Int)
      (moderation_status : String)
  | markComplete (ids : List String)
deriving Repr, DecidableEq

/-- Outcome of one attempt of `fn.remote` inside withRetry: the call threw,
returned a structurally invalid response (`!res || !Array.isArray(res.results)`),
or returned a results list. -/
inductive AttemptResult
  | throws
  | badShape
  | ok (results : List ScanResult)
deriving Repr

/-- MAX_RETRIES (media_scanner.js line 10). -/
def MAX_RETRIES : Nat := 3

/-- RETRY_DELAY_MS (media_scanner.js line 11); the fixed delay slept
between attempts. -/
def RETRY_DELAY_MS : Nat := 3000

/-- Failure oracle and backend behaviour for one run of scanMediaJobs.
Each `...Fails` field decides whether the corresponding awaited call throws
after being invoked.  `unexpectedThrow job = some k` models a defect
exception escaping the inner try/catch blocks after `k` effects of the
job's body have been emitted, reaching the per-job catch
(media_scanner.js lines 242-247). -/
structure Env where
  blockedHashFails : Job → Bool
  restrictFails : Job → Bool
  unsafeLogFails : Job → Bool
  quarantineMoveFails : Job → Bool
  commitMoveFails : Job → Bool
  createFails : Job → Bool
  unexpectedThrow : Job → Option Nat
  markCompleteFails : Bool
  visionOutcome : Except Unit (List ScanResult)
  attempts : Nat → AttemptResult

/-- withRetry (media_scanner.js lines 39-57): attempt counter starts at 0;
a throwing or badly shaped attempt increments it and, once it reaches
MAX_RETRIES, rethrows; otherwise the loop sleeps RETRY_DELAY_MS and retries.
The fuel argument makes the loop structural; it is set to MAX_RETRIES, which
bounds the iterations actually possible. -/
def withRetryAux (attempts : Nat → AttemptResult) : Nat → Nat → Except Unit (List ScanResult)
  | _, 0 => .error ()
  | i, fuel + 1 =>
    match attempts i with
    | .ok rs => .ok rs
    | _ => if MAX_RETRIES ≤ i + 1 then .error () else withRetryAux attempts (i + 1) fuel

/-- Entry point of the retry loop. -/
def withRetry (attempts : Nat → AttemptResult) : Except Unit (List ScanResult) :=
  withRetryAux attempts 0 MAX_RETRIES

/-- bucketMap (media_scanner.js lines 13-27) as a partial lookup. -/
def bucketMap (t : String) : Option String :=
  if t == "post" then some "posts-media"
  else if t == "opportunity" then some "opportunities-media"
  else if t == "chat_media" then some "chats-media"
  else if t == "profile_picture" then some "users-media"
  else if t == "profile_cover" then some "users-media"
  else if t == "license_certification" then some "talent-profiles-media"
  else if t == "education" then some "talent-profiles-media"
  else if t == "project" then some "talent-profiles-media"
  else if t == "award_achievement" then some "talent-profiles-media"
  else if t == "work_experience" then some "talent-profiles-media"
  else if t == "volunteer_experience" then some "talent-profiles-media"
  else if t == "testimonial" then some "talent-profiles-media"
  else if t == "publication" then some "talent-profiles-media"
  else none

/-- getTargetBucket (media_scanner.js line 102): `bucketMap[t] || 'default-bucket'`.
An absent `linked_to_type` indexes to undefined, hence the default. -/
def getTargetBucket (lt : Option String) : String :=
  match lt with
  | none => "default-bucket"
  | some t => (bucketMap t).getD "default-bucket"

/-- prefixTypes (media_scanner.js line 107). -/
def prefixTypes : List String := ["post", "opportunity"]

/-- Destination key (media_scanner.js lines 108-110):
`prefixTypes.includes(t) || !t ? file_name : t + "/" + file_name`.
JS falsiness of `linked_to_type` covers both the absent field and the
empty string. -/
def destKey (job : Job) : String :=
  match job.linked_to_type with
  | none => job.file_name
  | some t =>
    if prefixTypes.contains t || t == "" then job.file_name
    else t ++ "/" ++ job.file_name

/-- Audit-log invocation the catch blocks perform: action "error" with the
given error_name and target. -/
def errLog (name : String) (target : Option String) : Effect :=
  .logEvent "error" (some name) target

/-- JavaScript String.prototype.startsWith on the character lists of the
two strings (the code only ever tests the literal "video" against a mime
type). -/
def jsStartsWith (s p : String) : Bool :=
  p.toList.isPrefixOf s.toList

/-- The validation createMediaItem (src/app/services/db.js lines 51-80)
performs on the record the scanner passes, which makes the call throw
deterministically: any JS-falsy required field - job_id, user_id,
linked_to_id, linked_to_type, file_name (the destination key), file_size,
sha256_hash, mime_type, width, height - rejects with "Invalid media item
data", and a video mime type without a duration rejects with "Missing
duration".  Falsiness: empty string, absent field, or zero. -/
def createMediaItemRejects (job : Job) (r : ScanResult) : Bool :=
  job.id == "" || job.user_id == "" || job.linked_to_id == "" ||
  (match job.linked_to_type with
   | none => true
   | some t => t == "") ||
  destKey job == "" || job.file_size == 0 || job.sha256_hash == "" ||
  job.mime_type == "" ||
  (match r.width with
   | none => true
   | some w => w == 0) ||
  (match r.height with
   | none => true
   | some h => h == 0) ||
  (jsStartsWith job.mime_type "video" && r.duration == none)

/-- One `try { await call } catch (err) { log }` block: the invocation
itself, followed by the catch's audit error exactly when the oracle says
the call threw. -/
def tryStep (failed : Bool) (eff : Effect) (errName : String) (target : Option String) :
    List Effect :=
  [eff] ++ (if failed then [errLog errName target] else [])

/-- Quarantine path (media_scanner.js lines 114-191): the four sub-steps,
each in its own try/catch that only appends an audit error.  Returns the
effect trace and whether the job is pushed onto completedJobs (always true
on this path). -/
def quarantineSteps (env : Env) (job : Job) : List Effect × Bool :=
  let toKey := destKey job
  (tryStep (env.blockedHashFails job)
      (.addBlockedHash job.sha256_hash
        (if jsStartsWith job.mime_type "video" then "video" else "image") toKey)
      "blocked_hash_add_failed" (some job.id)
    ++ tryStep (env.restrictFails job) (.restrictUser job.user_id)
      "user_upload_restriction_failed" (some job.id)
    ++ tryStep (env.unsafeLogFails job)
      (.logEvent "unsafe_content_detected" none (some job.id))
      "unsafe_content_log_failed" (some job.id)
    ++ tryStep (env.quarantineMoveFails job)
      (.moveObject job.file_name "quarantine" job.file_name)
      "quarantine_move_failed" (some job.id),
   true)

/-- Commit path (media_scanner.js lines 192-239): move then createMediaItem;
either failure logs an audit error and skips to the next job (`continue`),
so the job is excluded from completedJobs and createMediaItem is reached
only when the move call did not throw.  The create call throws either for
an environmental reason (the oracle) or deterministically when db.js
rejects the record (createMediaItemRejects). -/
def commitSteps (env : Env) (job : Job) (r : ScanResult) : List Effect × Bool :=
  let mv := tryStep (env.commitMoveFails job)
      (.moveObject job.file_name (getTargetBucket job.linked_to_type) (destKey job))
      "media_move_failed" (some job.id)
  if env.commitMoveFails job then (mv, false)
  else
    let crThrows := env.createFails job || createMediaItemRejects job r
    let cr := tryStep crThrows
        (.createMediaItem job.id job.user_id (destKey job)
          r.width r.height r.duration "approved")
        "media_create_failed" (some job.id)
    if crThrows then (mv ++ cr, false) else (mv ++ cr, true)

/-- One iteration of the reconciliation loop (media_scanner.js lines 89-248)
for one job, given the verdict looked up for its id.  A missing verdict or a
non-Boolean `is_nsfw` emits the scan_result_missing audit error and skips the
job.  A defect exception (`unexpectedThrow = some k`) truncates the body's
trace after k effects and appends the per-job catch's audit error; the job
is then not pushed onto completedJobs. -/
def processJob (env : Env) (job : Job) (res : Option ScanResult) : List Effect × Bool :=
  match res with
  | none => ([errLog "scan_result_missing" (some job.id)], false)
  | some r =>
    match r.is_nsfw with
    | none => ([errLog "scan_result_missing" (some job.id)], false)
    | some nsfw =>
      let body := if nsfw then quarantineSteps env job else commitSteps env job r
      match env.unexpectedThrow job with
      | none => body
      | some k =>
        (body.1.take k ++ [errLog "unexpected_job_processing_error" (some job.id)], false)

/-- The reconciliation loop over a batch: concatenated traces and the
completedJobs list in job order. -/
def processJobs (env : Env) (lookup : String → Option ScanResult) :
    List Job → List Effect × List Job
  | [] => ([], [])
  | job :: rest =>
    let pj := processJob env job (lookup job.id)
    let pr := processJobs env lookup rest
    (pj.1 ++ pr.1, (if pj.2 then [job] else []) ++ pr.2)

/-- Object.fromEntries(results.map(r => [r.job_id, r])) indexed at `id`
(media_scanner.js line 85): with duplicate job_ids the later entry wins,
hence the last matching element. -/
def resultsById (results : List ScanResult) (id : String) : Option ScanResult :=
  (results.filter fun r => r.job_id == id).getLast?

/-- Backend selection (media_scanner.js lines 66-83).  Image batches of at
most 16 go to the Vision adapter directly: its exception propagates with no
audit event (`.error []`).  Every other batch goes through withRetry; on
exhaustion the catch logs one event - the duplicate `action:` key in the JS
object literal makes the action "failed_scan" - and rethrows. -/
def scanResults (env : Env) (jobs : List Job) (tp : String) :
    Except (List Effect) (List ScanResult) :=
  if tp == "images" && jobs.length ≤ 16 then
    match env.visionOutcome with
    | .error _ => .error []
    | .ok rs => .ok rs
  else
    match withRetry env.attempts with
    | .error _ => .error [Effect.logEvent "failed_scan" (some "media_scan_engine_failed") none]
    | .ok rs => .ok rs

/-- Result of one scanMediaJobs call: either the function threw (after
emitting the given audit trace) or it finished with a trace and the
completedJobs it passed to markJobsAsComplete. -/
inductive ScanOutcome
  | threw (trace : List Effect)
  | finished (trace : List Effect) (completed : List Job)
deriving Repr, DecidableEq

/-- scanMediaJobs (media_scanner.js lines 59-257).  Invalid type: one audit
event, then throw.  Backend failure: the trace of `scanResults`, then throw.
Otherwise reconcile every job, invoke markJobsAsComplete on the completed
list, and log either the summary event (action "scan") or, if marking
threw, the mark_jobs_complete_failed audit error. -/
def scanMediaJobs (env : Env) (jobs : List Job) (tp : String) : ScanOutcome :=
  if tp == "images" || tp == "videos" then
    match scanResults env jobs tp with
    | .error t => .threw t
    | .ok results =>
      let pr := processJobs env (resultsById results) jobs
      let tail := [Effect.markComplete (pr.2.map Job.id)] ++
        (if env.markCompleteFails then [errLog "mark_jobs_complete_failed" none]
         else [Effect.logEvent "scan" none none])
      .finished (pr.1 ++ tail) pr.2
  else
    .threw [errLog "invalid_scan_type" none]

/-- True exactly on a createMediaItem invocation for the given job id. -/
def isCreateFor (i : String) : Effect → Bool
  | .createMediaItem j _ _ _ _ _ _ => j == i
  | _ => false

/-- True on any invocation that mutates durable or stored state on behalf of
the given job: its object moved, its hash blocklisted, its uploader
restricted, or its metadata record created. -/
def destructiveFor (j : Job) : Effect → Bool
  | .moveObject f _ _ => f == j.file_name
  | .addBlockedHash h _ _ => h == j.sha256_hash
  | .restrictUser u => u == j.user_id
  | .createMediaItem i _ _ _ _ _ _ => i == j.id
  | _ => false

/-
Batching queue (src/unnamed/part_001).  Per media class the module keeps a
queue array, a scanning flag, a debounced timer and the first-enqueue
timestamp.  `inFlight` counts scan invocations started and not yet settled;
it is not a variable of the JS code but the quantity the single-flight flag
is meant to bound, so the model carries it alongside.
-/

/-- Mutable state of one media class of the batching queue. -/
structure ClassState where
  queue : List Job
  scanning : Bool
  inFlight : Nat
  firstTime : Option Nat
  timerArmed : Bool
deriving Repr, DecidableEq

/-- Per-class constants (batch size, max wait, poll interval). -/
structure FlushParams where
  batchSize : Nat
  maxWait : Nat
  interval : Nat
deriving Repr, DecidableEq

/-- IMAGE_BATCH_SIZE, IMAGE_MAX_WAIT, IMAGE_INTERVAL (part_001 lines 93-95). -/
def IMAGE_PARAMS : FlushParams := ⟨50, 10000, 2000⟩

/-- VIDEO_BATCH_SIZE, VIDEO_MAX_WAIT, VIDEO_INTERVAL (part_001 lines 97-99). -/
def VIDEO_PARAMS : FlushParams := ⟨10, 10000, 3000⟩

/-- maybeFlushImages / maybeFlushVideos (part_001 lines 102-128): return
early if a scan is in flight or the queue is empty; otherwise splice up to
batchSize jobs out of the queue, set the scanning flag and start a scan
invocation (inFlight + 1). -/
def maybeFlush (batchSize : Nat) (s : ClassState) : ClassState :=
  if s.scanning || s.queue.isEmpty then s
  else { s with queue := s.queue.drop batchSize, scanning := true,
                inFlight := s.inFlight + 1 }

/-- The flush-now condition of scheduleFlush (part_001 lines 138 and 152):
elapsed time since the first unflushed enqueue reached maxWait, or the queue
reached batchSize. -/
def flushTriggers (p : FlushParams) (now : Nat) (s : ClassState) : Bool :=
  p.maxWait ≤ now - s.firstTime.getD now || p.batchSize ≤ s.queue.length

/-- scheduleFlush (part_001 lines 130-162) for one class: record the batch
start if unset, clear any pending timer, then either flush immediately
(resetting the batch start) or arm the debounced timer.  The concrete
timeout duration, min(maxWait - elapsed, interval), only affects when the
timer event may fire and is not tracked. -/
def scheduleFlush (p : FlushParams) (now : Nat) (s : ClassState) : ClassState :=
  let first := s.firstTime.getD now
  let s0 := { s with firstTime := some first, timerArmed := false }
  if flushTriggers p now s0 then
    maybeFlush p.batchSize { s0 with firstTime := none }
  else
    { s0 with timerArmed := true }

/-- The armed timer firing (part_001 lines 142-145 and 156-159): reset the
batch start and run maybeFlush. -/
def fireTimer (p : FlushParams) (s : ClassState) : ClassState :=
  maybeFlush p.batchSize { s with timerArmed := false, firstTime := none }

/-- The .finally handler of an in-flight scan settling (part_001 lines
110-113 and 124-127): clear the scanning flag (the invocation is no longer
in flight), then if the queue is non-empty request a new flush cycle. -/
def onScanComplete (p : FlushParams) (now : Nat) (s : ClassState) : ClassState :=
  let s1 := { s with scanning := false, inFlight := s.inFlight - 1 }
  if s1.queue.isEmpty then s1 else scheduleFlush p now s1

/-- Events one class of the batching queue reacts to. -/
inductive ClassEvent
  | enqueue (now : Nat) (job : Job)
  | timer
  | complete (now : Nat)
deriving Repr

/-- State transition of one class on one event.  An enqueue appends the job
and calls scheduleFlush (queueMediaJob, part_001 lines 164-171). -/
def classStep (p : FlushParams) (s : ClassState) : ClassEvent → ClassState
  | .enqueue now job => scheduleFlush p now { s with queue := s.queue ++ [job] }
  | .timer => fireTimer p s
  | .complete now => onScanComplete p now s

/-- States reachable from the module-load state (empty queue, no scan in
flight, no timer).  A timer event requires an armed timer; a complete event
requires an in-flight scan to settle. -/
inductive Reachable (p : FlushParams) : ClassState → Prop
  | init : Reachable p ⟨[], false, 0, none, false⟩
  | enqueue {s : ClassState} (now : Nat) (job : Job) :
      Reachable p s → Reachable p (classStep p s (.enqueue now job))
  | timer {s : ClassState} :
      Reachable p s → s.timerArmed = true → Reachable p (classStep p s .timer)
  | complete {s : ClassState} (now : Nat) :
      Reachable p s → 1 ≤ s.inFlight → Reachable p (classStep p s (.complete now))

/-- The two-class batcher state. -/
structure OrchState where
  images : ClassState
  videos : ClassState
deriving Repr, DecidableEq

/-- queueMediaJob (part_001 lines 164-185): jobs whose mime type starts
with "video" are pushed onto the video queue, everything else onto the
image queue, then that class's scheduleFlush runs. -/
def queueMediaJob (now : Nat) (job : Job) (s : OrchState) : OrchState :=
  if jsStartsWith job.mime_type "video" then
    let v := scheduleFlush VIDEO_PARAMS now { s.videos with queue := s.videos.queue ++ [job] }
    { s with videos := v }
  else
    let i := scheduleFlush IMAGE_PARAMS now { s.images with queue := s.images.queue ++ [job] }
    { s with images := i }

/-
Recovery bootstrap (src/unnamed/part_001 lines 188-226).
-/

/-- Outcome of generateSignedGetUrl for one job: a url, a falsy value, or a
thrown error. -/
inductive UrlOutcome
  | ok (url : String)
  | nullUrl
  | throws
deriving Repr, DecidableEq

/-- Externally visible actions of the recovery loop. -/
inductive RecEffect
  | enqueued (job : Job)
  | logError (error_name : String) (job_id : String)
deriving Repr, DecidableEq

/-- Recovery handling of one fetched pending job: skip silently on an
invalid (falsy) file_name or a falsy signed url; on success assign the
fresh url and enqueue via queueMediaJob; on a thrown error emit the
signed_url_generation_failed audit event and skip. -/
def recoverJob (urlFor : Job → UrlOutcome) (job : Job) : List RecEffect :=
  if job.file_name == "" then []
  else
    match urlFor job with
    | .ok url => [.enqueued { job with url := url }]
    | .nullUrl => []
    | .throws => [.logError "signed_url_generation_failed" job.id]

/-- The recovery bootstrap loop over the jobs fetched with status pending:
each is handled once, in order. -/
def recoveryBootstrap (urlFor : Job → UrlOutcome) (missedJobs : List Job) :
    List RecEffect :=
  (missedJobs.map (recoverJob urlFor)).flatten

/-- The jobs a recovery trace admits to the batching queue, in order. -/
def enqueuedJobs (trace : List RecEffect) : List Job :=
  trace.filterMap fun e =>
    match e with
    | .enqueued j => some j
    | .logError _ _ => none

/-- Whether recovery re-admits this job: valid file_name and a successful
signed url. -/
def urlOk (urlFor : Job → UrlOutcome) (job : Job) : Bool :=
  job.file_name != "" &&
    match urlFor job with
    | .ok _ => true
    | _ => false

/-- The job as re-admitted: with the freshly derived url when there is one. -/
def freshUrl (urlFor : Job → UrlOutcome) (job : Job) : Job :=
  match urlFor job with
  | .ok url => { job with url := url }
  | _ => job

/-
Concrete inputs used to exercise the definitions.
-/

/-- A concrete image job linked to a post. -/
def jImg : Job := ⟨"j1", "u1", "images/1/a.jpeg", 100, "hash1", "image/jpeg", "L1", some "post", "urlA"⟩

/-- A concrete video job linked to a chat. -/
def jVid : Job := ⟨"j2", "u2", "videos/2/b.mp4", 500, "hash2", "video/mp4", "L2", some "chat_media", "urlB"⟩

/-- A concrete image job linked to an education entry (a sharded category). -/
def jEdu : Job := ⟨"j3", "u3", "images/3/c.png", 50, "hash3", "image/png", "L3", some "education", "urlC"⟩

/-- An environment in which every external call succeeds and the backends
return empty result lists. -/
def baseEnv : Env where
  blockedHashFails := fun _ => false
  restrictFails := fun _ => false
  unsafeLogFails := fun _ => false
  quarantineMoveFails := fun _ => false
  commitMoveFails := fun _ => false
  createFails := fun _ => false
  unexpectedThrow := fun _ => none
  markCompleteFails := false
  visionOutcome := .ok []
  attempts := fun _ => .ok []

/-- An NSFW verdict for jImg. -/
def vrTrue1 : ScanResult := ⟨"j1", some true, none, none, none, false⟩

/-- A safe verdict for jImg. -/
def vrSafe1 : ScanResult := ⟨"j1", some false, some 640, some 480, none, false⟩

/-- An NSFW verdict for jVid. -/
def vrTrue2 : ScanResult := ⟨"j2", some true, none, none, none, false⟩

/-- Vision flags jImg as NSFW. -/
def envNsfw : Env := { baseEnv with visionOutcome := .ok [vrTrue1] }

/-- Vision clears jImg but the commit-path storage move fails. -/
def envMoveFail : Env :=
  { baseEnv with visionOutcome := .ok [vrSafe1], commitMoveFails := fun _ => true }

/-- Vision clears jImg, the move succeeds, but createMediaItem fails. -/
def envCreateFail : Env :=
  { baseEnv with visionOutcome := .ok [vrSafe1], createFails := fun _ => true }

/-- The Vision call reports a per-image error for jImg, which the adapter
turns into an is_nsfw = false verdict carrying the error. -/
def envVisionErr : Env :=
  { baseEnv with visionOutcome := .ok (safeSearchFromUrls [jImg] [VisionResponse.err]) }

/-- The Vision call itself throws (e.g. a network failure in axios.post). -/
def envVisionThrows : Env := { baseEnv with visionOutcome := .error () }

/-- Every remote scan-engine attempt throws. -/
def envRetryFails : Env := { baseEnv with attempts := fun _ => .throws }

/-- Quarantine run for jVid in which the blocklist insert and the
quarantine move both fail. -/
def envQuarFail : Env :=
  { baseEnv with visionOutcome := .ok [vrTrue2],
                 blockedHashFails := fun _ => true,
                 quarantineMoveFails := fun _ => true }

/-- A defect exception escapes after one effect of jImg's reconciliation. -/
def envThrowMid : Env :=
  { baseEnv with visionOutcome := .ok [vrSafe1], unexpectedThrow := fun _ => some 1 }

/-- Verdict lookup answering only for jVid, with an NSFW verdict. -/
def lookupNsfw2 : String → Option ScanResult := resultsById [vrTrue2]

/-- Verdict lookup answering only for jImg, with a safe verdict. -/
def lookupSafe1 : String → Option ScanResult := resultsById [vrSafe1]

/-- A batch of five identical image jobs (the spec's whole-batch-failure
scenario size). -/
def fiveImages : List Job := List.replicate 5 jImg

/-- Image-class batcher state holding 49 queued jobs, idle, with the batch
start recorded at time 0. -/
def stThresh : OrchState :=
  ⟨⟨List.replicate 49 jImg, false, 0, some 0, false⟩, ⟨[], false, 0, none, false⟩⟩

/-- Url derivation used for the recovery witness: fails for jEdu, succeeds
with a fresh url for everything else. -/
def urlForW : Job → UrlOutcome :=
  fun j => if j.id == "j3" then .throws else .ok "freshUrl"

/-- The trace scanMediaJobs produces for the single-job batch [jImg] under
envNsfw: the four quarantine invocations, the completion marking and the
summary log. -/
def trNsfwRun : List Effect :=
  [Effect.addBlockedHash "hash1" "image" "images/1/a.jpeg",
   Effect.restrictUser "u1",
   Effect.logEvent "unsafe_content_detected" none (some "j1"),
   Effect.moveObject "images/1/a.jpeg" "quarantine" "images/1/a.jpeg",
   Effect.markComplete ["j1"],
   Effect.logEvent "scan" none none]

/-- The trace scanMediaJobs produces for [jImg] under envVisionErr: the
error-carrying Vision verdict is processed on the commit path, so the
object is moved to its final bucket; the createMediaItem call is then made
but db.js rejects the dimensionless record, so media_create_failed is
logged, no job is completed, and markJobsAsComplete runs on the empty
list. -/
def trVisionErrRun : List Effect :=
  [Effect.moveObject "images/1/a.jpeg" "posts-media" "images/1/a.jpeg",
   Effect.createMediaItem "j1" "u1" "images/1/a.jpeg" none none none "approved",
   errLog "media_create_failed" (some "j1"),
   Effect.markComplete [],
   Effect.logEvent "scan" none none]

/-- The image-class batcher state reached from the module-load state by one
enqueue of jImg at time 0. -/
def s5W : ClassState :=
  classStep IMAGE_PARAMS ⟨[], false, 0, none, false⟩ (ClassEvent.enqueue 0 jImg)

/-- The batcher state after the armed debounce timer fires on s5W: the
queued job is flushed and a scan is in flight. -/
def s6W : ClassState := classStep IMAGE_PARAMS s5W ClassEvent.timer

/-- The idle two-class batcher state. -/
def emptyOrch : OrchState := ⟨⟨[], false, 0, none, false⟩, ⟨[], false, 0, none, false⟩⟩

/-- The single-flight invariant of one batcher class: never more than one
scan invocation in flight, with the scanning flag tracking it exactly. -/
def SingleFlight (s : ClassState) : Prop :=
  s.inFlight ≤ 1 ∧ (s.scanning = true ↔ s.inFlight = 1)

/-
Shared lemmas about the reconciliation loop.
-/

/-- Membership in a try/catch block's trace: the invocation or its audit
error. -/
theorem mem_tryStep {e eff : Effect} {f : Bool} {n : String} {t : Option String}
    (h : e ∈ tryStep f eff n t) : e = eff ∨ e = errLog n t := by
  unfold tryStep at h
  rcases List.mem_append.1 h with h | h
  · exact Or.inl (List.mem_singleton.1 h)
  · split at h
    · exact Or.inr (List.mem_singleton.1 h)
    · cases h

/-- The reconciliation loop distributes over batch concatenation: traces
and completed jobs of the two parts simply concatenate. -/
theorem processJobs_append (env : Env) (lookup : String → Option ScanResult)
    (a b : List Job) :
    processJobs env lookup (a ++ b) =
      ((processJobs env lookup a).1 ++ (processJobs env lookup b).1,
       (processJobs env lookup a).2 ++ (processJobs env lookup b).2) := by
  induction a with
  | nil => simp [processJobs]
  | cons j rest ih => simp [processJobs, ih, List.append_assoc]

/-- A job is in the completed list of a batch iff it is in the batch and
its own reconciliation pushed it. -/
theorem mem_processJobs_completed (env : Env) (lookup : String → Option ScanResult)
    (jobs : List Job) (j : Job) :
    j ∈ (processJobs env lookup jobs).2 ↔
      j ∈ jobs ∧ (processJob env j (lookup j.id)).2 = true := by
  induction jobs with
  | nil => simp [processJobs]
  | cons m rest ih =>
    rcases hf : (processJob env m (lookup m.id)).2
    · simp only [processJobs, hf, Bool.false_eq_true, if_false, List.nil_append, ih,
        List.mem_cons]
      constructor
      · rintro ⟨hj, h2⟩
        exact ⟨Or.inr hj, h2⟩
      · rintro ⟨rfl | hj, h2⟩
        · rw [hf] at h2; cases h2
        · exact ⟨hj, h2⟩
    · simp only [processJobs, hf, if_true, List.singleton_append, List.mem_cons, ih]
      constructor
      · rintro (rfl | ⟨hj, h2⟩)
        · exact ⟨Or.inl rfl, hf⟩
        · exact ⟨Or.inr hj, h2⟩
      · rintro ⟨rfl | hj, h2⟩
        · exact Or.inl rfl
        · exact Or.inr ⟨hj, h2⟩

/-- The quarantine path never invokes createMediaItem. -/
theorem quarantineSteps_no_create (env : Env) (job : Job) (i : String) :
    ∀ e ∈ (quarantineSteps env job).1, isCreateFor i e = false := by
  intro e he
  unfold quarantineSteps at he
  rcases List.mem_append.1 he with h | h
  on_goal 1 => rcases List.mem_append.1 h with h | h
  on_goal 1 => rcases List.mem_append.1 h with h | h
  all_goals rcases mem_tryStep h with rfl | rfl <;> rfl

/-- Every createMediaItem invocation of the commit path carries the job's
own id, and it only appears when the move call did not throw. -/
theorem commitSteps_create (env : Env) (job : Job) (r : ScanResult) (i : String)
    (e : Effect) (he : e ∈ (commitSteps env job r).1) (hc : isCreateFor i e = true) :
    job.id = i ∧ env.commitMoveFails job = false := by
  simp only [commitSteps] at he
  rcases hmv : env.commitMoveFails job
  · simp only [hmv, Bool.false_eq_true, if_false] at he
    rcases hcr : (env.createFails job || createMediaItemRejects job r) <;>
        simp only [hcr, Bool.false_eq_true, if_false, if_true] at he <;>
        rcases List.mem_append.1 he with h | h <;>
        rcases mem_tryStep h with rfl | rfl <;>
        simp only [isCreateFor, errLog, beq_iff_eq, Bool.false_eq_true] at hc
    · exact ⟨hc, rfl⟩
    · exact ⟨hc, rfl⟩
  · simp only [hmv, if_true] at he
    rcases mem_tryStep he with rfl | rfl <;>
      simp only [isCreateFor, errLog, Bool.false_eq_true] at hc

/-- Flag of the commit path: true exactly when neither the move nor the
metadata write threw (environmentally or by db.js rejecting the record). -/
theorem commitSteps_flag (env : Env) (job : Job) (r : ScanResult) :
    (commitSteps env job r).2 =
      (!env.commitMoveFails job
        && !(env.createFails job || createMediaItemRejects job r)) := by
  simp only [commitSteps]
  split
  · rename_i h; simp [h]
  · rename_i h
    rcases hcr : (env.createFails job || createMediaItemRejects job r) <;>
      simp [h, hcr]

/-- Any createMediaItem invocation in a job's reconciliation trace carries
the job's own id, implies the move call did not throw, and comes from a
valid safe verdict. -/
theorem processJob_create (env : Env) (job : Job) (res : Option ScanResult)
    (i : String) (e : Effect) (he : e ∈ (processJob env job res).1)
    (hc : isCreateFor i e = true) :
    job.id = i ∧ env.commitMoveFails job = false ∧
      ∃ r, res = some r ∧ r.is_nsfw = some false := by
  rcases res with _ | r
  · simp only [processJob] at he
    rcases List.mem_singleton.1 he with rfl
    simp [isCreateFor, errLog] at hc
  rcases hb : r.is_nsfw with _ | nsfw
  · simp only [processJob, hb] at he
    rcases List.mem_singleton.1 he with rfl
    simp [isCreateFor, errLog] at hc
  have hbody : ∀ x ∈ (if nsfw then quarantineSteps env job else commitSteps env job r).1,
      isCreateFor i x = true →
        (job.id = i ∧ env.commitMoveFails job = false) ∧ nsfw = false := by
    intro x hx hcx
    cases nsfw
    · simp only [Bool.false_eq_true, if_false] at hx
      exact ⟨commitSteps_create env job r i x hx hcx, rfl⟩
    · simp only [if_true] at hx
      exact absurd hcx (by simp [quarantineSteps_no_create env job i x hx])
  rcases hth : env.unexpectedThrow job with _ | k
  · simp only [processJob, hb, hth] at he
    rcases hbody e he hc with ⟨⟨h1, h2⟩, rfl⟩
    exact ⟨h1, h2, r, rfl, hb⟩
  · simp only [processJob, hb, hth] at he
    rcases List.mem_append.1 he with h | h
    · rcases hbody e (List.take_subset _ _ h) hc with ⟨⟨h1, h2⟩, rfl⟩
      exact ⟨h1, h2, r, rfl, hb⟩
    · rcases List.mem_singleton.1 h with rfl
      simp [isCreateFor, errLog] at hc

/-- Any createMediaItem invocation in a batch trace belongs to some job of
the batch whose looked-up verdict is valid and safe. -/
theorem processJobs_create (env : Env) (lookup : String → Option ScanResult)
    (jobs : List Job) (i : String) (e : Effect)
    (he : e ∈ (processJobs env lookup jobs).1) (hc : isCreateFor i e = true) :
    ∃ job ∈ jobs, job.id = i ∧ ∃ r, lookup i = some r ∧ r.is_nsfw = some false := by
  induction jobs with
  | nil => simp [processJobs] at he
  | cons m rest ih =>
    simp only [processJobs] at he
    rcases List.mem_append.1 he with h | h
    · rcases processJob_create env m (lookup m.id) i e h hc with ⟨hid, _, r, hr, hn⟩
      exact ⟨m, List.mem_cons_self m rest, hid, r, by rw [← hid]; exact hr, hn⟩
    · rcases ih h with ⟨job, hj, rest⟩
      exact ⟨job, List.mem_cons_of_mem m hj, rest⟩

/-- C1: in every finished scanMediaJobs run, a job id whose backend verdict
has is_nsfw = true never has a createMediaItem invocation in the trace, so
such a job never appears in the approved-media record store. -/
theorem c1_nsfw_never_committed (env : Env) (jobs : List Job) (tp : String)
    (results : List ScanResult) (trace : List Effect) (completed : List Job)
    (i : String) (r : ScanResult)
    (hres : scanResults env jobs tp = .ok results)
    (hid : resultsById results i = some r)
    (hnsfw : r.is_nsfw = some true)
    (hrun : scanMediaJobs env jobs tp = .finished trace completed) :
    ∀ e ∈ trace, isCreateFor i e = false := by
  intro e he
  rcases hce : isCreateFor i e
  · rfl
  exfalso
  unfold scanMediaJobs at hrun
  split at hrun
  · simp only [hres] at hrun
    cases hrun
    rcases List.mem_append.1 he with h | h
    · rcases processJobs_create env (resultsById results) jobs i e h hce with
        ⟨job, _, _, r2, hr2, hn2⟩
      rw [hid] at hr2
      cases hr2
      rw [hnsfw] at hn2
      simp at hn2
    · rcases List.mem_append.1 h with h | h
      · rcases List.mem_singleton.1 h with rfl
        simp [isCreateFor] at hce
      · split at h <;> rcases List.mem_singleton.1 h with rfl <;>
          simp [isCreateFor, errLog] at hce
  · cases hrun

/-- C1 witness: the NSFW image batch [jImg] under envNsfw finishes with
trace trNsfwRun, whose quarantine-move element is not a createMediaItem
for "j1". -/
theorem c1_witness :
    isCreateFor "j1"
      (Effect.moveObject "images/1/a.jpeg" "quarantine" "images/1/a.jpeg") = false :=
  c1_nsfw_never_committed envNsfw [jImg] "images" [vrTrue1] trNsfwRun [jImg]
    "j1" vrTrue1 rfl (by decide) (by decide) (by decide)
    (Effect.moveObject "images/1/a.jpeg" "quarantine" "images/1/a.jpeg") (by decide)

/-- C2 counterexample: the Vision adapter maps a backend error to a verdict
with is_nsfw = false (carrying the error), and scanMediaJobs then
reconciles the job on the commit path instead of skipping it: the object
is moved to its final bucket (a destructive action) and createMediaItem is
invoked; db.js then rejects the dimensionless record, so the audit error
is media_create_failed - not the missing-verdict error - and the job is
excluded from completion. -/
theorem c2_counterexample :
    resultsById (safeSearchFromUrls [jImg] [VisionResponse.err]) jImg.id =
      some (⟨"j1", some false, none, none, none, true⟩ : ScanResult)
    ∧ scanMediaJobs envVisionErr [jImg] "images" =
        .finished trVisionErrRun []
    ∧ Effect.moveObject jImg.file_name "posts-media" jImg.file_name ∈ trVisionErrRun
    ∧ errLog "media_create_failed" (some "j1") ∈ trVisionErrRun := by decide

/-- C2 amended: a job whose looked-up verdict is absent or has a
non-Boolean is_nsfw is skipped with exactly one scan_result_missing audit
error, no destructive action, and exclusion from the completed set (so its
status is never changed).  A backend-error verdict whose is_nsfw is the
Boolean false, as the Vision adapter produces, is not covered: it enters
the commit path, where the object is moved to its final bucket before
db.js rejects the dimensionless metadata record and the job is excluded
from completion (see the counterexample). -/
theorem c2_invalid_verdict_skipped (env : Env) (lookup : String → Option ScanResult)
    (jobs : List Job) (j : Job)
    (h : lookup j.id = none ∨ ∃ r, lookup j.id = some r ∧ r.is_nsfw = none) :
    processJob env j (lookup j.id) = ([errLog "scan_result_missing" (some j.id)], false)
    ∧ (∀ e ∈ (processJob env j (lookup j.id)).1, destructiveFor j e = false)
    ∧ j ∉ (processJobs env lookup jobs).2 := by
  have hpj : processJob env j (lookup j.id) =
      ([errLog "scan_result_missing" (some j.id)], false) := by
    rcases h with h | ⟨r, hr, hn⟩
    · rw [h]
      rfl
    · rw [hr]
      simp [processJob, hn]
  refine ⟨hpj, ?_, ?_⟩
  · rw [hpj]
    intro e he
    rcases List.mem_singleton.1 he with rfl
    rfl
  · rw [mem_processJobs_completed]
    rintro ⟨_, hflag⟩
    rw [hpj] at hflag
    simp at hflag

/-- C2 amended witness: a batch whose lookup answers nothing for jEdu skips
it with exactly the audit error, which is not a destructive action. -/
theorem c2_witness :
    processJob baseEnv jEdu none =
      ([errLog "scan_result_missing" (some jEdu.id)], false)
    ∧ destructiveFor jEdu (errLog "scan_result_missing" (some jEdu.id)) = false :=
  ⟨(c2_invalid_verdict_skipped baseEnv (fun _ => none) [jEdu] jEdu (Or.inl rfl)).1,
   (c2_invalid_verdict_skipped baseEnv (fun _ => none) [jEdu] jEdu (Or.inl rfl)).2.1
     (errLog "scan_result_missing" (some jEdu.id)) (by decide)⟩

/-- C3: on the commit path, a failed move means no createMediaItem
invocation for the job and exclusion from the completed set; a failed
createMediaItem also means exclusion; and a job joins the completed set
only when neither the move nor the metadata write threw. -/
theorem c3_commit_move_then_create (env : Env) (lookup : String → Option ScanResult)
    (jobs : List Job) (j : Job) (r : ScanResult)
    (hl : lookup j.id = some r) (hn : r.is_nsfw = some false) :
    (env.commitMoveFails j = true →
        (∀ e ∈ (processJob env j (lookup j.id)).1, isCreateFor j.id e = false)
        ∧ j ∉ (processJobs env lookup jobs).2)
    ∧ (env.createFails j = true → j ∉ (processJobs env lookup jobs).2)
    ∧ (j ∈ (processJobs env lookup jobs).2 →
        env.commitMoveFails j = false ∧ env.createFails j = false) := by
  have haux : (processJob env j (lookup j.id)).2 = true →
      env.commitMoveFails j = false ∧ env.createFails j = false := by
    intro hflag
    rw [hl] at hflag
    simp only [processJob, hn, Bool.false_eq_true, if_false] at hflag
    rcases hth : env.unexpectedThrow j with _ | k <;> rw [hth] at hflag
    · rw [commitSteps_flag] at hflag
      simp only [Bool.and_eq_true, Bool.not_eq_true', Bool.or_eq_false_iff] at hflag
      exact ⟨hflag.1, hflag.2.1⟩
    · simp at hflag
  have hmem : j ∈ (processJobs env lookup jobs).2 →
      env.commitMoveFails j = false ∧ env.createFails j = false := by
    intro hm
    exact haux ((mem_processJobs_completed env lookup jobs j).1 hm).2
  have hnoc : env.commitMoveFails j = true →
      ∀ e ∈ (processJob env j (lookup j.id)).1, isCreateFor j.id e = false := by
    intro hmv e he
    rcases hce : isCreateFor j.id e
    · rfl
    exfalso
    rcases processJob_create env j (lookup j.id) j.id e he hce with ⟨_, hmvf, _⟩
    rw [hmv] at hmvf
    cases hmvf
  refine ⟨fun hmv => ⟨hnoc hmv, fun hm => ?_⟩, fun hcr hm => ?_, hmem⟩
  · rw [(hmem hm).1] at hmv
    cases hmv
  · rw [(hmem hm).2] at hcr
    cases hcr

/-- Unrolling of the retry loop: the outcome is a function of the first
MAX_RETRIES attempt outcomes only, consulted in order. -/
theorem withRetry_spec (a : Nat → AttemptResult) :
    withRetry a = match a 0 with
      | .ok rs => .ok rs
      | _ => match a 1 with
        | .ok rs => .ok rs
        | _ => match a 2 with
          | .ok rs => .ok rs
          | _ => .error () := by
  rcases h0 : a 0 <;> rcases h1 : a 1 <;> rcases h2 : a 2 <;>
    simp [withRetry, withRetryAux, MAX_RETRIES, h0, h1, h2]

/-- When no attempt among the first MAX_RETRIES succeeds, the retry loop
rethrows. -/
theorem withRetry_exhausted (a : Nat → AttemptResult)
    (h : ∀ i, i < MAX_RETRIES → ∀ rs, a i ≠ .ok rs) : withRetry a = .error () := by
  rw [withRetry_spec]
  rcases h0 : a 0 with _ | _ | rs <;> rcases h1 : a 1 with _ | _ | rs <;>
    rcases h2 : a 2 with _ | _ | rs <;>
    first
      | rfl
      | exact absurd h0 (h 0 (by decide) _)
      | exact absurd h1 (h 1 (by decide) _)
      | exact absurd h2 (h 2 (by decide) _)

/-- C4 counterexample to the claim as stated: a batch of five image jobs
goes to the Vision path, which is invoked once with no retry; when it
throws, scanMediaJobs propagates the failure with an empty audit trace -
zero batch-failure audit events, not one. -/
theorem c4_counterexample :
    fiveImages.length = 5
    ∧ scanMediaJobs envVisionThrows fiveImages "images" = .threw [] := by
  decide

/-- C4 amended: bounded retry (at most MAX_RETRIES attempts, RETRY_DELAY_MS
between them) governs the bulk scan-engine path - videos, or image batches
of more than 16 - and exhausting it fails the whole batch with exactly one
batch-failure audit event, no per-job side effect, no completion and no
markJobsAsComplete call, leaving every job pending.  The small-image Vision
path is invoked once, without retry; its failure likewise aborts the batch
before any side effect, but emits no audit event. -/
theorem c4_bulk_retry_batch_failure :
    (∀ a b : Nat → AttemptResult, (∀ i, i < MAX_RETRIES → a i = b i) →
      withRetry a = withRetry b)
    ∧ (∀ (env : Env) (jobs : List Job) (tp : String),
        (tp = "videos" ∨ (tp = "images" ∧ 16 < jobs.length)) →
        (∀ i, i < MAX_RETRIES → ∀ rs, env.attempts i ≠ .ok rs) →
        scanMediaJobs env jobs tp =
          .threw [Effect.logEvent "failed_scan" (some "media_scan_engine_failed") none])
    ∧ (∀ (env : Env) (jobs : List Job),
        env.visionOutcome = .error () → jobs.length ≤ 16 →
        scanMediaJobs env jobs "images" = .threw []) := by
  refine ⟨?_, ?_, ?_⟩
  · intro a b h
    rw [withRetry_spec a, withRetry_spec b,
      h 0 (by decide), h 1 (by decide), h 2 (by decide)]
  · intro env jobs tp htp hfail
    have hw := withRetry_exhausted env.attempts hfail
    rcases htp with rfl | ⟨rfl, hlen⟩
    · simp [scanMediaJobs, scanResults, hw]
    · simp [scanMediaJobs, scanResults, hw, Nat.not_le.2 hlen]
  · intro env jobs hvis hlen
    simp [scanMediaJobs, scanResults, hvis, hlen]

/-- C4 witness: with every remote attempt throwing, a one-video batch fails
as a whole with the single batch-failure audit event. -/
theorem c4_witness :
    scanMediaJobs envRetryFails [jVid] "videos" =
      .threw [Effect.logEvent "failed_scan" (some "media_scan_engine_failed") none] :=
  c4_bulk_retry_batch_failure.2.1 envRetryFails [jVid] "videos" (Or.inl rfl)
    (by intro i hi rs h; cases h)

/-- C6: on the quarantine path (valid NSFW verdict, no defect exception),
for every failure oracle all four sub-step invocations - blocklist insert,
user restriction, unsafe-content audit event, move to the quarantine
bucket at the same key - appear in the job's trace, and the job joins the
completed set regardless of which sub-steps failed. -/
theorem c6_quarantine_best_effort (env : Env) (lookup : String → Option ScanResult)
    (jobs : List Job) (j : Job) (r : ScanResult)
    (hl : lookup j.id = some r) (hn : r.is_nsfw = some true)
    (hth : env.unexpectedThrow j = none) :
    Effect.addBlockedHash j.sha256_hash
        (if jsStartsWith j.mime_type "video" then "video" else "image") (destKey j)
      ∈ (processJob env j (lookup j.id)).1
    ∧ Effect.restrictUser j.user_id ∈ (processJob env j (lookup j.id)).1
    ∧ Effect.logEvent "unsafe_content_detected" none (some j.id)
      ∈ (processJob env j (lookup j.id)).1
    ∧ Effect.moveObject j.file_name "quarantine" j.file_name
      ∈ (processJob env j (lookup j.id)).1
    ∧ (processJob env j (lookup j.id)).2 = true
    ∧ (j ∈ jobs → j ∈ (processJobs env lookup jobs).2) := by
  have hpj : processJob env j (lookup j.id) = quarantineSteps env j := by
    rw [hl]
    simp [processJob, hn, hth]
  rw [hpj]
  refine ⟨?_, ?_, ?_, ?_, rfl, fun hm => ?_⟩
  · simp [quarantineSteps, tryStep]
  · simp [quarantineSteps, tryStep]
  · simp [quarantineSteps, tryStep]
  · simp [quarantineSteps, tryStep]
  · exact (mem_processJobs_completed env lookup jobs j).2 ⟨hm, by rw [hpj]; rfl⟩

/-- C6 witness: jVid with an NSFW verdict under an oracle failing the
blocklist insert and the quarantine move still shows all four invocations
and completes. -/
theorem c6_witness :
    Effect.addBlockedHash jVid.sha256_hash
        (if jsStartsWith jVid.mime_type "video" then "video" else "image") (destKey jVid)
      ∈ (processJob envQuarFail jVid (lookupNsfw2 jVid.id)).1
    ∧ Effect.restrictUser jVid.user_id ∈ (processJob envQuarFail jVid (lookupNsfw2 jVid.id)).1
    ∧ Effect.logEvent "unsafe_content_detected" none (some jVid.id)
      ∈ (processJob envQuarFail jVid (lookupNsfw2 jVid.id)).1
    ∧ Effect.moveObject jVid.file_name "quarantine" jVid.file_name
      ∈ (processJob envQuarFail jVid (lookupNsfw2 jVid.id)).1
    ∧ (processJob envQuarFail jVid (lookupNsfw2 jVid.id)).2 = true
    ∧ jVid ∈ (processJobs envQuarFail lookupNsfw2 [jVid]).2 := by
  have h := c6_quarantine_best_effort envQuarFail lookupNsfw2 [jVid] jVid vrTrue2
    (by decide) (by decide) rfl
  exact ⟨h.1, h.2.1, h.2.2.1, h.2.2.2.1, h.2.2.2.2.1,
    h.2.2.2.2.2 (List.mem_singleton.2 rfl)⟩

/-- C8: a defect exception escaping a job's reconciliation (at any point of
its body) is caught per-job: the unexpected-error audit event is emitted,
the job is excluded from the completed set, and the trace and completions
of the sibling jobs before and after it are exactly those of their own
reconciliations - the batch is not aborted. -/
theorem c8_defect_isolated (env : Env) (lookup : String → Option ScanResult)
    (pre post : List Job) (j : Job) (k : Nat) (r : ScanResult) (b : Bool)
    (hth : env.unexpectedThrow j = some k) (hl : lookup j.id = some r)
    (hn : r.is_nsfw = some b) :
    (processJobs env lookup (pre ++ j :: post)).1 =
      (processJobs env lookup pre).1 ++ (processJob env j (lookup j.id)).1
        ++ (processJobs env lookup post).1
    ∧ (processJobs env lookup (pre ++ j :: post)).2 =
      (processJobs env lookup pre).2 ++ (processJobs env lookup post).2
    ∧ errLog "unexpected_job_processing_error" (some j.id)
        ∈ (processJob env j (lookup j.id)).1
    ∧ (processJob env j (lookup j.id)).2 = false := by
  have hpj2 : (processJob env j (lookup j.id)).2 = false := by
    rw [hl]
    simp [processJob, hn, hth]
  have happ := processJobs_append env lookup pre (j :: post)
  refine ⟨?_, ?_, ?_, hpj2⟩
  · rw [happ]
    simp [processJobs, List.append_assoc]
  · rw [happ]
    simp [processJobs, hpj2]
  · rw [hl]
    simp [processJob, hn, hth]

/-- C8 witness: a defect after one effect of jImg's commit path leaves jImg
uncompleted with the audit event, and the surrounding empty batches
compose. -/
theorem c8_witness :
    (processJobs envThrowMid lookupSafe1 ([] ++ jImg :: [])).1 =
      (processJobs envThrowMid lookupSafe1 []).1
        ++ (processJob envThrowMid jImg (lookupSafe1 jImg.id)).1
        ++ (processJobs envThrowMid lookupSafe1 []).1
    ∧ (processJobs envThrowMid lookupSafe1 ([] ++ jImg :: [])).2 =
      (processJobs envThrowMid lookupSafe1 []).2 ++ (processJobs envThrowMid lookupSafe1 []).2
    ∧ errLog "unexpected_job_processing_error" (some jImg.id)
        ∈ (processJob envThrowMid jImg (lookupSafe1 jImg.id)).1
    ∧ (processJob envThrowMid jImg (lookupSafe1 jImg.id)).2 = false :=
  c8_defect_isolated envThrowMid lookupSafe1 [] [] jImg 1 vrSafe1 false
    rfl (by decide) (by decide)

/-- maybeFlush preserves the single-flight invariant: it only starts a scan
when the flag is clear, which under the invariant means nothing is in
flight. -/
theorem singleFlight_maybeFlush (B : Nat) (s : ClassState) (h : SingleFlight s) :
    SingleFlight (maybeFlush B s) := by
  unfold maybeFlush
  split
  · exact h
  · rename_i hcond
    simp only [Bool.or_eq_true, not_or, Bool.not_eq_true] at hcond
    have h0 : s.inFlight = 0 := by
      rcases h with ⟨h1, h2⟩
      by_contra hne
      have : s.inFlight = 1 := by omega
      have := h2.2 this
      rw [hcond.1] at this
      cases this
    exact And.intro (by simp [h0]) (by simp [h0])

/-- scheduleFlush preserves the single-flight invariant. -/
theorem singleFlight_scheduleFlush (p : FlushParams) (now : Nat) (s : ClassState)
    (h : SingleFlight s) : SingleFlight (scheduleFlush p now s) := by
  simp only [scheduleFlush]
  split
  · exact singleFlight_maybeFlush _ _ h
  · exact h

/-- A scan settling preserves the single-flight invariant. -/
theorem singleFlight_onScanComplete (p : FlushParams) (now : Nat) (s : ClassState)
    (h : SingleFlight s) : SingleFlight (onScanComplete p now s) := by
  have hs1 : SingleFlight { s with scanning := false, inFlight := s.inFlight - 1 } := by
    have hle := h.1
    refine And.intro ?_ (Iff.intro ?_ ?_)
    · show s.inFlight - 1 ≤ 1
      omega
    · intro hf
      exact absurd (show (false = true) from hf) Bool.false_ne_true
    · intro h1
      have h2 : s.inFlight - 1 = 1 := h1
      exfalso
      omega
  simp only [onScanComplete]
  split
  · exact hs1
  · exact singleFlight_scheduleFlush _ _ _ hs1

/-- Every state reachable by the batcher satisfies the single-flight
invariant. -/
theorem singleFlight_reachable {p : FlushParams} {s : ClassState}
    (h : Reachable p s) : SingleFlight s := by
  induction h with
  | init => exact And.intro (by decide) (by decide)
  | enqueue now job h ih => exact singleFlight_scheduleFlush _ _ _ ih
  | timer h harm ih => exact singleFlight_maybeFlush _ _ ih
  | complete now h hin ih => exact singleFlight_onScanComplete _ _ _ ih

/-- C5: in every reachable batcher state at most one scan invocation per
class is in flight; a flush attempted while one is in flight is a no-op
(no second scan starts); and when the in-flight scan completes with a
non-empty queue, a new flush cycle is scheduled (either it starts at once
or the debounce timer is armed). -/
theorem c5_single_flight (p : FlushParams) (s : ClassState) (h : Reachable p s) :
    s.inFlight ≤ 1
    ∧ (s.scanning = true → maybeFlush p.batchSize s = s)
    ∧ (∀ now, 1 ≤ s.inFlight → s.queue ≠ [] →
        ((onScanComplete p now s).scanning = true
          ∨ (onScanComplete p now s).timerArmed = true)) := by
  refine ⟨(singleFlight_reachable h).1, fun hsc => ?_, fun now hin hq => ?_⟩
  · simp [maybeFlush, hsc]
  · have hques : s.queue.isEmpty = false := by
      rcases hq2 : s.queue with _ | ⟨a, l⟩
      · exact absurd hq2 hq
      · rfl
    simp only [onScanComplete, hques, Bool.false_eq_true, if_false]
    simp only [scheduleFlush]
    split
    · simp [maybeFlush, hques]
    · right
      rfl

/-- C5 witness: after an enqueue and the timer firing, one scan is in
flight (never more), and a flush attempted in that state is a no-op. -/
theorem c5_witness :
    s6W.inFlight ≤ 1 ∧ maybeFlush IMAGE_PARAMS.batchSize s6W = s6W :=
  ⟨(c5_single_flight IMAGE_PARAMS s6W
      (Reachable.timer (Reachable.enqueue 0 jImg Reachable.init) (by decide))).1,
   (c5_single_flight IMAGE_PARAMS s6W
      (Reachable.timer (Reachable.enqueue 0 jImg Reachable.init) (by decide))).2.1
     (by decide)⟩

/-- C3 witness: for jImg with a safe verdict and a failing commit move, the
move invocation recorded in the job's trace is not a createMediaItem. -/
theorem c3_witness :
    isCreateFor jImg.id
      (Effect.moveObject "images/1/a.jpeg" "posts-media" "images/1/a.jpeg") = false :=
  ((c3_commit_move_then_create envMoveFail lookupSafe1 [jImg] jImg vrSafe1
      (by decide) (by decide)).1 rfl).1
    (Effect.moveObject "images/1/a.jpeg" "posts-media" "images/1/a.jpeg") (by decide)

/-- recoverJob re-admits exactly the jobs with a valid file_name and a
successful fresh url, with that url substituted. -/
theorem enqueuedJobs_recoverJob (urlFor : Job → UrlOutcome) (job : Job) :
    enqueuedJobs (recoverJob urlFor job) =
      if urlOk urlFor job then [freshUrl urlFor job] else [] := by
  rcases hf : (job.file_name == "")
  · have hf2 : job.file_name ≠ "" := by
      intro h
      rw [h] at hf
      simp at hf
    rcases hu : urlFor job <;>
      simp [recoverJob, urlOk, freshUrl, enqueuedJobs, hf, hu, hf2]
  · have hf2 : job.file_name = "" := eq_of_beq hf
    rcases hu : urlFor job <;>
      simp [recoverJob, urlOk, freshUrl, enqueuedJobs, hf, hu, hf2]

/-- enqueuedJobs distributes over trace concatenation. -/
theorem enqueuedJobs_append (a b : List RecEffect) :
    enqueuedJobs (a ++ b) = enqueuedJobs a ++ enqueuedJobs b :=
  List.filterMap_append a b _

/-- Re-deriving the url never changes a job's id. -/
theorem freshUrl_id (urlFor : Job → UrlOutcome) (job : Job) :
    (freshUrl urlFor job).id = job.id := by
  unfold freshUrl
  rcases urlFor job <;> rfl

/-- The jobs the recovery bootstrap re-admits are exactly the fetched jobs
whose url derivation succeeded, in fetch order, each with its fresh url. -/
theorem recovery_enqueues (urlFor : Job → UrlOutcome) (missed : List Job) :
    enqueuedJobs (recoveryBootstrap urlFor missed) =
      (missed.filter (urlOk urlFor)).map (freshUrl urlFor) := by
  induction missed with
  | nil => rfl
  | cons m rest ih =>
    rw [show recoveryBootstrap urlFor (m :: rest) =
          recoverJob urlFor m ++ recoveryBootstrap urlFor rest from rfl,
       enqueuedJobs_append, enqueuedJobs_recoverJob, ih, List.filter_cons]
    rcases ho : urlOk urlFor m <;> simp [ho]

/-- With pairwise distinct fetched ids, a successfully recovered job is
enqueued exactly once. -/
theorem recovery_count (urlFor : Job → UrlOutcome) (missed : List Job) (j : Job)
    (hmem : j ∈ missed) (hok : urlOk urlFor j = true)
    (hnd : (missed.map Job.id).Nodup) :
    ((enqueuedJobs (recoveryBootstrap urlFor missed)).filter
      (fun x => x.id == j.id)).length = 1 := by
  rw [recovery_enqueues]
  induction missed with
  | nil => cases hmem
  | cons m rest ih =>
    rw [List.map_cons, List.nodup_cons] at hnd
    rcases List.mem_cons.1 hmem with rfl | hmem2
    · rw [List.filter_cons, if_pos (by rw [hok]), List.map_cons,
        List.filter_cons,
        if_pos (by rw [freshUrl_id, beq_self_eq_true])]
      have hrest : ((rest.filter (urlOk urlFor)).map (freshUrl urlFor)).filter
          (fun x => x.id == j.id) = [] := by
        rw [List.filter_eq_nil_iff]
        intro x hx
        rcases List.mem_map.1 hx with ⟨y, hy, rfl⟩
        have hyr : y ∈ rest := List.mem_of_mem_filter hy
        intro hcontra
        have hid : y.id = j.id := by
          have := of_decide_eq_true (by exact hcontra)
          rwa [freshUrl_id] at this
        exact hnd.1 (hid ▸ List.mem_map_of_mem Job.id hyr)
      rw [hrest]
      rfl
    · have hmne : (m.id == j.id) = false := by
        rw [beq_eq_false_iff_ne]
        intro heq
        exact hnd.1 (heq ▸ List.mem_map_of_mem Job.id hmem2)
      rw [List.filter_cons]
      rcases ho : urlOk urlFor m
      · simp only [ho, Bool.false_eq_true, if_false]
        exact ih hmem2 hnd.2
      · simp only [ho, if_true, List.map_cons, List.filter_cons, freshUrl_id, hmne,
          Bool.false_eq_true, if_false]
        exact ih hmem2 hnd.2

/-- C7: the recovery bootstrap re-admits exactly the fetched pending jobs
whose fresh read url could be derived, in order and with the fresh url
substituted (each exactly once when fetched ids are distinct); a job whose
url derivation throws gets the audit error and is skipped - it is never
enqueued and no effect of the bootstrap changes any job's status, so it
remains pending. -/
theorem c7_recovery_bootstrap (urlFor : Job → UrlOutcome) (missed : List Job) :
    enqueuedJobs (recoveryBootstrap urlFor missed) =
      (missed.filter (urlOk urlFor)).map (freshUrl urlFor)
    ∧ (∀ j ∈ missed, j.file_name ≠ "" → urlFor j = .throws →
        recoverJob urlFor j = [.logError "signed_url_generation_failed" j.id])
    ∧ (∀ j, j ∈ missed → urlOk urlFor j = true → (missed.map Job.id).Nodup →
        ((enqueuedJobs (recoveryBootstrap urlFor missed)).filter
          (fun x => x.id == j.id)).length = 1) := by
  refine ⟨recovery_enqueues urlFor missed, ?_,
    fun j hm hok hnd => recovery_count urlFor missed j hm hok hnd⟩
  intro j _ hf ht
  have hb : (j.file_name == "") = false := beq_eq_false_iff_ne.2 hf
  simp [recoverJob, hb, ht]

/-- C7 witness: recovering [jImg, jVid, jEdu] where jEdu's url derivation
throws re-admits jImg and jVid once each with the fresh url and logs the
failure for jEdu. -/
theorem c7_witness :
    enqueuedJobs (recoveryBootstrap urlForW [jImg, jVid, jEdu]) =
      ([jImg, jVid, jEdu].filter (urlOk urlForW)).map (freshUrl urlForW)
    ∧ recoverJob urlForW jEdu = [.logError "signed_url_generation_failed" jEdu.id]
    ∧ ((enqueuedJobs (recoveryBootstrap urlForW [jImg, jVid, jEdu])).filter
        (fun x => x.id == jImg.id)).length = 1 := by
  have h := c7_recovery_bootstrap urlForW [jImg, jVid, jEdu]
  exact ⟨h.1,
    h.2.1 jEdu (by decide) (by decide) (by decide),
    h.2.2 jImg (by decide) (by decide) (by decide)⟩

/-- C9: the destination bucket comes from the static bucketMap with a
default for unmapped or absent linked_to_type; the destination key keeps
the original file name for the flat categories (and for an absent type) and
otherwise prefixes it with the linked_to_type and a slash; and the commit
path's move invocation uses exactly this bucket and key. -/
theorem c9_destination (j : Job) :
    (j.linked_to_type = none →
      getTargetBucket j.linked_to_type = "default-bucket" ∧ destKey j = j.file_name)
    ∧ (∀ t, j.linked_to_type = some t → bucketMap t = none →
        getTargetBucket j.linked_to_type = "default-bucket")
    ∧ (∀ t b, j.linked_to_type = some t → bucketMap t = some b →
        getTargetBucket j.linked_to_type = b)
    ∧ (∀ t, j.linked_to_type = some t → t ∈ prefixTypes → destKey j = j.file_name)
    ∧ (∀ t, j.linked_to_type = some t → t ∉ prefixTypes → t ≠ "" →
        destKey j = t ++ "/" ++ j.file_name)
    ∧ (∀ (env : Env) (lookup : String → Option ScanResult) (r : ScanResult),
        lookup j.id = some r → r.is_nsfw = some false → env.unexpectedThrow j = none →
        Effect.moveObject j.file_name (getTargetBucket j.linked_to_type) (destKey j)
          ∈ (processJob env j (lookup j.id)).1) := by
  refine ⟨?_, ?_, ?_, ?_, ?_, ?_⟩
  · intro h
    rw [h]
    exact ⟨rfl, by simp [destKey, h]⟩
  · intro t ht hb
    rw [ht]
    simp [getTargetBucket, hb]
  · intro t b ht hb
    rw [ht]
    simp [getTargetBucket, hb]
  · intro t ht hmem
    simp only [prefixTypes, List.mem_cons, List.not_mem_nil, or_false] at hmem
    rcases hmem with rfl | rfl <;> simp [destKey, ht, prefixTypes]
  · intro t ht hnmem hne
    simp only [prefixTypes, List.mem_cons, List.not_mem_nil, or_false, not_or] at hnmem
    have c1 : (t == "post") = false := beq_eq_false_iff_ne.2 hnmem.1
    have c2 : (t == "opportunity") = false := beq_eq_false_iff_ne.2 hnmem.2
    have c3 : (t == "") = false := beq_eq_false_iff_ne.2 hne
    simp [destKey, ht, prefixTypes, List.contains, List.elem, c1, c2, c3]
  · intro env lookup r hl hn hth
    rw [hl]
    simp only [processJob, hn, Bool.false_eq_true, if_false, hth]
    rcases hmv : env.commitMoveFails j <;>
      rcases hcr : (env.createFails j || createMediaItemRejects j r) <;>
      simp [commitSteps, tryStep, hmv, hcr]

/-- C9 witness: jEdu's linked_to_type "education" maps to the talent
bucket, its key is sharded under "education/", and the commit-path move
invocation uses exactly that bucket and key. -/
theorem c9_witness :
    getTargetBucket jEdu.linked_to_type = "talent-profiles-media"
    ∧ destKey jEdu = "education" ++ "/" ++ jEdu.file_name
    ∧ Effect.moveObject jEdu.file_name (getTargetBucket jEdu.linked_to_type) (destKey jEdu)
        ∈ (processJob baseEnv jEdu ((fun _ => some vrSafe1) jEdu.id)).1 := by
  have h := c9_destination jEdu
  exact ⟨h.2.2.1 "education" "talent-profiles-media" rfl rfl,
    h.2.2.2.2.1 "education" rfl (by decide) (by decide),
    h.2.2.2.2.2 baseEnv (fun _ => some vrSafe1) vrSafe1 rfl rfl rfl⟩

/-- C10 counterexample to "never removes elements": with 49 images queued,
the batch start recorded and no scan in flight, one more enqueue reaches
the batch size, flushes immediately, and leaves the image queue empty - the
49 previously queued jobs are removed by the call. -/
theorem c10_counterexample :
    jImg ∈ stThresh.images.queue
    ∧ (queueMediaJob 0 jImg stThresh).images.queue = [] := by
  decide

/-- C10 amended: queueMediaJob classifies a job as video exactly when its
mime type starts with "video" and touches only that class's queue,
appending the job to it; the call never throws (it is total).  When the
appended queue meets the flush condition (batch size reached, or the batch
age reached the max wait) and no scan of that class is in flight, the call
then hands the first batchSize queued jobs to the scanner, removing them;
otherwise the queue is exactly the old queue plus the new job and nothing
is removed. -/
theorem c10_enqueue_classify (now : Nat) (job : Job) (s : OrchState) :
    (jsStartsWith job.mime_type "video" = true →
      (queueMediaJob now job s).images = s.images
      ∧ (queueMediaJob now job s).videos.queue =
          (if (VIDEO_PARAMS.maxWait ≤ now - s.videos.firstTime.getD now
                || VIDEO_PARAMS.batchSize ≤ (s.videos.queue ++ [job]).length)
              && !s.videos.scanning
           then (s.videos.queue ++ [job]).drop VIDEO_PARAMS.batchSize
           else s.videos.queue ++ [job]))
    ∧ (jsStartsWith job.mime_type "video" = false →
      (queueMediaJob now job s).videos = s.videos
      ∧ (queueMediaJob now job s).images.queue =
          (if (IMAGE_PARAMS.maxWait ≤ now - s.images.firstTime.getD now
                || IMAGE_PARAMS.batchSize ≤ (s.images.queue ++ [job]).length)
              && !s.images.scanning
           then (s.images.queue ++ [job]).drop IMAGE_PARAMS.batchSize
           else s.images.queue ++ [job])):= by
  constructor
  · intro hv
    refine ⟨by simp [queueMediaJob, hv], ?_⟩
    simp only [queueMediaJob, hv, if_true, scheduleFlush, flushTriggers, maybeFlush,
      Option.getD]
    rcases hsc : s.videos.scanning <;>
      rcases hft : s.videos.firstTime with _ | f0 <;>
      by_cases h1 : VIDEO_PARAMS.maxWait ≤ now - (s.videos.firstTime.getD now) <;>
      by_cases h2 : VIDEO_PARAMS.batchSize ≤ (s.videos.queue ++ [job]).length <;>
      simp_all
    all_goals try (split <;> simp_all)
  · intro hv
    refine ⟨by simp [queueMediaJob, hv], ?_⟩
    simp only [queueMediaJob, hv, Bool.false_eq_true, if_false, scheduleFlush,
      flushTriggers, maybeFlush, Option.getD]
    rcases hsc : s.images.scanning <;>
      rcases hft : s.images.firstTime with _ | f0 <;>
      by_cases h1 : IMAGE_PARAMS.maxWait ≤ now - (s.images.firstTime.getD now) <;>
      by_cases h2 : IMAGE_PARAMS.batchSize ≤ (s.images.queue ++ [job]).length <;>
      simp_all
    all_goals try (split <;> simp_all)

/-- C10 witness: a lone video enqueued into the idle batcher goes to the
video queue (the image class untouched) and, with no flush condition met,
nothing is removed. -/
theorem c10_witness :
    (queueMediaJob 0 jVid emptyOrch).images = emptyOrch.images
    ∧ (queueMediaJob 0 jVid emptyOrch).videos.queue =
        (if (VIDEO_PARAMS.maxWait ≤ 0 - emptyOrch.videos.firstTime.getD 0
              || VIDEO_PARAMS.batchSize ≤ (emptyOrch.videos.queue ++ [jVid]).length)
            && !emptyOrch.videos.scanning
         then (emptyOrch.videos.queue ++ [jVid]).drop VIDEO_PARAMS.batchSize
         else emptyOrch.videos.queue ++ [jVid]) :=
  (c10_enqueue_classify 0 jVid emptyOrch).1 (by decide)

end MediaScan
